import Mathlib

/-!
Shallow embedding of the EE-RI-Agent result-processing pipeline
(`src/processors/result_processor.py`) and the TRL classification provider
(`src/providers/trl_provider.py`), with theorems checking the natural-language
specification's claims against the code.

Conventions of the embedding:
* Python dicts with a fixed field set become Lean structures; absent optional
  string fields are the empty string (the spec's §6 "absent optional fields are
  represented as empty/zero values"), except where Python distinguishes a
  missing key from a falsy value in a way a claim depends on (then `Option`).
* Python dicts used as insertion-ordered maps become association lists.
* Python floats (confidence scores, thresholds) are modelled as `ℚ`; the
  claims under study never hinge on binary floating-point rounding.
* `hashlib.md5(title.lower())` is modelled by the injection
  `PaperKey.titleKey title.toLower`: deduplication only consumes key equality,
  and md5 digests of distinct strings are treated as distinct (and as distinct
  from every DOI string).
-/

set_option maxRecDepth 8000

/- Core's `Rat` arithmetic is `@[irreducible]`, which blocks `decide` on
ground rational facts; restore default reducibility for this development. -/
attribute [local semireducible] Rat.add Rat.mul Rat.inv Rat.sub Rat.ofScientific

/-- Python's `sub in s` substring test on lists of characters:
`subLeads sub s` holds when `sub` is an initial segment of `s`. -/
def subLeads : List Char → List Char → Bool
  | [], _ => true
  | _ :: _, [] => false
  | a :: as, b :: bs => a == b && subLeads as bs

/-- `hasSubList s sub`: `sub` occurs contiguously somewhere in `s`. -/
def hasSubList : List Char → List Char → Bool
  | [], sub => sub.isEmpty
  | s@(_ :: rest), sub => subLeads sub s || hasSubList rest sub

/-- Python's `sub in s` on strings. -/
def strHas (s sub : String) : Bool :=
  hasSubList s.data sub.data

/-- Worker for `pySplit`: accumulate the current word (reversed) and cut at
whitespace, emitting no empty pieces. -/
def splitWsAux : List Char → List Char → List String
  | [], acc => if acc.isEmpty then [] else [String.mk acc.reverse]
  | c :: cs, acc =>
    if c.isWhitespace then
      if acc.isEmpty then splitWsAux cs []
      else String.mk acc.reverse :: splitWsAux cs []
    else splitWsAux cs (c :: acc)

/-- Python's `str.split()` with no argument: split on whitespace runs,
discarding empty pieces. -/
def pySplit (s : String) : List String :=
  splitWsAux s.data []

/-- Code-point lexicographic `≤` on char lists, as Python compares strings. -/
def charListLe : List Char → List Char → Bool
  | [], _ => true
  | _ :: _, [] => false
  | a :: as, b :: bs =>
    if a < b then true else if b < a then false else charListLe as bs

/-- Python string `≤` (code-point lexicographic). -/
def pyStrLe (a b : String) : Bool :=
  charListLe a.data b.data

/-- Python's `str.lower()` (ASCII case folding, as used by the source's
inputs), implemented over the character list so the kernel can evaluate it. -/
def pyLower (s : String) : String :=
  String.mk (s.data.map Char.toLower)

/-- Python's `str.upper()` over the character list. -/
def pyUpper (s : String) : String :=
  String.mk (s.data.map Char.toUpper)

/-- Stable insertion of `x` into `l`: `x` goes before the first element `y`
with `le x y = false`.  Folding this over a list from the right reproduces the
unique stable sort that Python's `list.sort` computes for a total preorder. -/
def stableInsert (le : α → α → Bool) (x : α) : List α → List α
  | [] => [x]
  | y :: ys => if le x y then x :: y :: ys else y :: stableInsert le x ys

/-- Stable sort by the boolean total preorder `le` (Python `list.sort`). -/
def pySort (le : α → α → Bool) (l : List α) : List α :=
  l.foldr (stableInsert le) []

/-- Distributor availability entry: `{stock: .., region: ..}` (the unused
`lead_time_weeks` field is omitted).  `region` is `none` when the key is
absent, matching Python's `dist.get("region")`. -/
structure DistEntry where
  stock : Nat
  region : Option String
  deriving DecidableEq, Repr

/-- Paper record (`title`, `authors`, `year`, `abstract`, `doi` and the
TRL annotation added at stage 5). -/
structure Paper where
  title : String
  authors : List String
  year : Int
  abstract : String
  doi : String
  trl : Option Nat := none
  deriving DecidableEq, Repr

/-- Patent record. -/
structure Patent where
  patent_number : String
  title : String
  abstract : String
  status : String
  filing_date : String
  trl : Option Nat := none
  deriving DecidableEq, Repr

/-- Component record.  `availability` is the distributor → entry map of the
source, as an insertion-ordered association list. -/
structure Component where
  part_number : String
  manufacturer : String
  category : String
  lifecycle : String
  specifications : List (String × String) := []
  applications : List String := []
  datasheet_url : String := ""
  availability : List (String × DistEntry) := []
  trl : Option Nat := none
  deriving DecidableEq, Repr

/-- Supply-chain record (pricing fields are unused by the claims). -/
structure SupplyChainRecord where
  part_number : String
  lifecycle : String
  availability : List (String × DistEntry)
  deriving DecidableEq, Repr

/-- Query understanding handed to the pipeline: `parameters.query`,
`parameters.regions` (`none` when the key is absent, defaulted to
`["EU", "Asia"]` by the regional filter) and the extracted entity lists. -/
structure QueryContext where
  query : String
  regions : Option (List String) := none
  entities : List (List String) := []
  deriving DecidableEq, Repr

/-- Cross-reference edge sets built at stage 6.  `paper_to_patent` entries are
`(paper title, patent number)`; `patent_to_component` entries are
`(patent number, component part number)`.  The source also declares an always
empty `paper_to_component` list, omitted here. -/
structure CrossRefs where
  paper_to_patent : List (String × String) := []
  patent_to_component : List (String × String) := []
  deriving DecidableEq, Repr

/-- The per-type result lists flowing between pipeline stages, together with
the annotations (cross references, clusters) added by stages 6 and 8. -/
structure Results where
  papers : List Paper
  patents : List Patent
  components : List Component
  supply_chain : List SupplyChainRecord
  cross_references : CrossRefs := {}
  component_clusters : List (String × List Component) := []
  deriving DecidableEq, Repr

/-- Raw provider payloads handed to `ResultProcessor.process`: the nested
`raw_results[t]["data"][...]` lists, flattened to one list per type. -/
structure RawResults where
  papers : List Paper
  patents : List Patent
  components : List Component
  supply_chain : List SupplyChainRecord
  deriving DecidableEq, Repr

/-- Identity key of a paper in `_deduplicate_papers`: the DOI when present
(non-empty), otherwise the md5 of the lowercased title — modelled as the
lowercased title itself under a distinct constructor. -/
inductive PaperKey where
  | doiKey : String → PaperKey
  | titleKey : String → PaperKey
  deriving DecidableEq, Repr

/-- `_deduplicate_papers` key computation. -/
def paperKey (p : Paper) : PaperKey :=
  if p.doi ≠ "" then .doiKey p.doi else .titleKey (pyLower p.title)

/-- Generic first-occurrence-wins deduplication with a `seen` key set.
`key x = none` means the record carries no identity key and is skipped
(dropped), as `_deduplicate_patents` / `_deduplicate_components` do when the
number field is missing. -/
def dedupGo (key : α → Option κ) [DecidableEq κ] : List α → List κ → List α
  | [], _ => []
  | x :: xs, seen =>
    match key x with
    | none => dedupGo key xs seen
    | some k =>
      if k ∈ seen then dedupGo key xs seen
      else x :: dedupGo key xs (k :: seen)

/-- `ResultProcessor._deduplicate_papers`. -/
def dedupPapers (papers : List Paper) : List Paper :=
  dedupGo (fun p => some (paperKey p)) papers []

/-- Key of a patent: `patent_number`, absent when empty (Python truthiness of
`patent.get("patent_number")`). -/
def patentKey (p : Patent) : Option String :=
  if p.patent_number ≠ "" then some p.patent_number else none

/-- `ResultProcessor._deduplicate_patents`. -/
def dedupPatents (patents : List Patent) : List Patent :=
  dedupGo patentKey patents []

/-- Key of a component: `part_number`, absent when empty. -/
def componentKey (c : Component) : Option String :=
  if c.part_number ≠ "" then some c.part_number else none

/-- `ResultProcessor._deduplicate_components`. -/
def dedupComponents (components : List Component) : List Component :=
  dedupGo componentKey components []

/-- Stage 1, `ResultProcessor._deduplicate`: per-type dedup; the supply-chain
list is passed through unchanged (the source comments it is
"already unique by part number" and performs no deduplication). -/
def dedupStage (raw : RawResults) : Results :=
  { papers := dedupPapers raw.papers
    patents := dedupPatents raw.patents
    components := dedupComponents raw.components
    supply_chain := raw.supply_chain }

/-- Stage 2, `ResultProcessor._filter_quality`: per-type mandatory-field
predicates; supply-chain records pass through. -/
def filterQuality (rs : Results) : Results :=
  { rs with
    papers := rs.papers.filter
      (fun p => p.title ≠ "" ∧ p.authors ≠ [] ∧ p.abstract.length > 50)
    patents := rs.patents.filter
      (fun p => p.title ≠ "" ∧ p.abstract ≠ "" ∧ p.patent_number ≠ "")
    components := rs.components.filter
      (fun c => c.part_number ≠ "" ∧ c.manufacturer ≠ "") }

/-- `ResultProcessor._is_relevant`: count query words and extracted entities
occurring in the lowercased `title + " " + abstract`, keep iff the count
reaches 30% of the query word count (float threshold modelled in `ℚ`). -/
def isRelevantText (title abstract : String) (q : QueryContext) : Bool :=
  let text := pyLower (title ++ " " ++ abstract)
  let queryWords := pySplit (pyLower q.query)
  let wordMatches := (queryWords.filter (fun w => strHas text w)).length
  let entityMatches :=
    (q.entities.map
      (fun ents => (ents.filter (fun e => strHas text (pyLower e))).length)).sum
  ((wordMatches + entityMatches : ℚ) ≥ (queryWords.length : ℚ) * (3 / 10))

/-- Stage 3, `ResultProcessor._filter_relevance`: papers and patents filtered
by `_is_relevant`; components and supply-chain records pass through. -/
def filterRelevance (rs : Results) (q : QueryContext) : Results :=
  { rs with
    papers := rs.papers.filter (fun p => isRelevantText p.title p.abstract q)
    patents := rs.patents.filter (fun p => isRelevantText p.title p.abstract q) }

/-- `ResultProcessor._is_regional_match`, embedded with its early returns:
EU / Asia manufacturer lists are consulted, but the final statement is an
unconditional `return True`. -/
def isRegionalMatch (manufacturer : String) (targetRegions : List String) : Bool :=
  let euMfrs := ["infineon", "stmicroelectronics", "st", "nxp", "philips"]
  let asiaMfrs := ["renesas", "rohm", "toshiba", "panasonic", "samsung"]
  let mfrLower := pyLower manufacturer
  if "EU" ∈ targetRegions ∧ euMfrs.any (fun m => strHas mfrLower m) then
    true
  else if "Asia" ∈ targetRegions ∧ asiaMfrs.any (fun m => strHas mfrLower m) then
    true
  else
    -- Texas Instruments, Analog Devices (US) - allow if no strict filtering
    true

/-- Survival predicate of a supply-chain record at stage 4: some distributor
entry has a `region` in the target set (`dist.get("region") in target_regions`,
where an absent region never matches). -/
def supplyRegionHit (sc : SupplyChainRecord) (targetRegions : List String) : Bool :=
  sc.availability.any
    (fun d => match d.2.region with
      | some r => r ∈ targetRegions
      | none => false)

/-- Stage 4, `ResultProcessor._filter_regional`: components filtered through
`_is_regional_match` on the manufacturer, supply-chain records through the
distributor-region test; papers and patents pass through. -/
def filterRegional (rs : Results) (q : QueryContext) : Results :=
  let targetRegions := q.regions.getD ["EU", "Asia"]
  { rs with
    components :=
      rs.components.filter (fun c => isRegionalMatch c.manufacturer targetRegions)
    supply_chain :=
      rs.supply_chain.filter (fun sc => supplyRegionHit sc targetRegions) }

/-- Stage 5 placeholder classification of one component in
`ResultProcessor._classify_trl`: set `trl` only when absent, 9 for lifecycle
`"Active"` (exact case), otherwise 7. -/
def classifyStageComponent (c : Component) : Component :=
  match c.trl with
  | some _ => c
  | none => { c with trl := some (if c.lifecycle = "Active" then 9 else 7) }

/-- Stage 5 placeholder for one paper: `trl := 2` when absent. -/
def classifyStagePaper (p : Paper) : Paper :=
  match p.trl with
  | some _ => p
  | none => { p with trl := some 2 }

/-- Stage 5 placeholder for one patent: 5 when `status == "Granted"`, else 4,
only when `trl` is absent. -/
def classifyStagePatent (p : Patent) : Patent :=
  match p.trl with
  | some _ => p
  | none => { p with trl := some (if p.status = "Granted" then 5 else 4) }

/-- Stage 5, `ResultProcessor._classify_trl` (the in-pipeline placeholder,
not the TRLProvider engine). -/
def classifyTrlStage (rs : Results) : Results :=
  { rs with
    papers := rs.papers.map classifyStagePaper
    patents := rs.patents.map classifyStagePatent
    components := rs.components.map classifyStageComponent }

/-- Stage 6, `ResultProcessor._cross_reference`: paper→patent edges when the
lowercased patent number occurs in the paper's lowercased title+abstract,
patent→component edges when the lowercased component category occurs in the
patent's text.  Stored endpoints are the original (un-lowercased) title /
numbers, as in the source. -/
def crossReference (rs : Results) : Results :=
  let paperToPatent :=
    rs.papers.flatMap (fun paper =>
      let paperText := pyLower (paper.title ++ " " ++ paper.abstract)
      rs.patents.filterMap (fun patent =>
        let patentNum := pyLower patent.patent_number
        if patentNum ≠ "" ∧ strHas paperText patentNum then
          some (paper.title, patent.patent_number)
        else none))
  let patentToComponent :=
    rs.patents.flatMap (fun patent =>
      let patentText := pyLower (patent.title ++ " " ++ patent.abstract)
      rs.components.filterMap (fun component =>
        let compCat := pyLower component.category
        if compCat ≠ "" ∧ strHas patentText compCat then
          some (patent.patent_number, component.part_number)
        else none))
  { rs with
    cross_references :=
      { paper_to_patent := paperToPatent
        patent_to_component := patentToComponent } }

/-- Stage 7, `ResultProcessor._rank_results`: stable descending sorts
(papers by year, patents by filing date, components by TRL with `None → 0`)
followed by truncation to the top 20 / 20 / 30. -/
def rankResults (rs : Results) : Results :=
  { rs with
    papers :=
      (pySort (fun a b => decide (b.year ≤ a.year)) rs.papers).take 20
    patents :=
      (pySort (fun a b => pyStrLe b.filing_date a.filing_date) rs.patents).take 20
    components :=
      (pySort (fun a b => decide (b.trl.getD 0 ≤ a.trl.getD 0)) rs.components).take 30 }

/-- Add one component to an insertion-ordered category cluster map. -/
def addToCluster (clusters : List (String × List Component)) (cat : String)
    (c : Component) : List (String × List Component) :=
  match clusters with
  | [] => [(cat, [c])]
  | (k, v) :: rest =>
    if k = cat then (k, v ++ [c]) :: rest else (k, v) :: addToCluster rest cat c

/-- Stage 8, `ResultProcessor._cluster_results`: group components by category
("Other" for a missing category), preserving insertion order. -/
def clusterResults (rs : Results) : Results :=
  { rs with
    component_clusters :=
      rs.components.foldl
        (fun acc c =>
          addToCluster acc (if c.category = "" then "Other" else c.category) c)
        [] }

/-- Stages 1–8 composed, as sequenced in `ResultProcessor.process`. -/
def pipelineResults (raw : RawResults) (q : QueryContext) : Results :=
  clusterResults (rankResults (crossReference (classifyTrlStage
    (filterRegional (filterRelevance (filterQuality (dedupStage raw)) q) q))))

/-- Summed stock across distributor entries
(`sum(dist.get("stock", 0) for dist in availability.values())`). -/
def totalStock (availability : List (String × DistEntry)) : Nat :=
  (availability.map (fun d => d.2.stock)).sum

/-- Number of distributor entries with positive stock. -/
def distributorCount (availability : List (String × DistEntry)) : Nat :=
  (availability.filter (fun d => d.2.stock > 0)).length

/-- A TRL classification result of `TRLProvider`: level, confidence and the
accumulated reason strings (the justification text is the `"TRL {n}: "`-
prefixed `"; "`-join of the reasons). -/
structure TrlClassification where
  trl : Nat
  confidence : ℚ
  reasons : List String
  deriving DecidableEq, Repr

/-- Justification string assembled at the end of each classification path. -/
def trlJustification (r : TrlClassification) : String :=
  "TRL " ++ toString r.trl ++ ": " ++ String.intercalate "; " r.reasons

/-- `TRLProvider._classify_component`: lifecycle-driven level with stock
thresholds for `active`, the datasheet floor, and additive confidence. -/
def classifyComponent (c : Component) : TrlClassification :=
  let lifecycle := pyLower c.lifecycle
  let step1 : Nat × List String :=
    if lifecycle = "active" then
      let ts := totalStock c.availability
      let dc := distributorCount c.availability
      if ts > 1000 ∧ dc ≥ 2 then
        (9, ["Mass production: " ++ toString ts ++ " units across "
              ++ toString dc ++ " distributors"])
      else if ts > 100 then
        (8, ["Production qualified: " ++ toString ts ++ " units available"])
      else
        (7, ["Active lifecycle with limited production"])
    else if lifecycle = "nrnd" then
      (8, ["Not recommended for new design (was production-ready)"])
    else if lifecycle = "obsolete" then
      (9, ["Obsolete (was fully deployed)"])
    else
      (5, [])
  let step2 : Nat × List String :=
    if c.datasheet_url ≠ "" then
      ((if step1.1 < 7 then 7 else step1.1),
        step1.2 ++ ["Published datasheet available"])
    else step1
  let reasons3 :=
    if c.specifications.length > 5 then
      step2.2 ++ ["Comprehensive specifications ("
        ++ toString c.specifications.length ++ " parameters)"]
    else step2.2
  let reasons4 :=
    if c.applications ≠ [] then
      reasons3 ++ ["Documented applications: " ++ toString c.applications.length]
    else reasons3
  let conf1 : ℚ :=
    if lifecycle ∈ ["active", "nrnd", "obsolete"] then 0.6 + 0.2 else 0.6
  let conf2 := if c.availability ≠ [] then conf1 + 0.1 else conf1
  let conf3 := if c.datasheet_url ≠ "" then conf2 + 0.1 else conf2
  { trl := step2.1, confidence := min conf3 1, reasons := reasons4 }

/-- The TRL keyword-indicator table of `TRLProvider`. -/
def trlIndicators : Nat → List String
  | 1 => ["theoretical", "principle", "basic research", "hypothesis", "concept"]
  | 2 => ["concept", "feasibility", "proposed", "initial design", "formulated"]
  | 3 => ["experiment", "proof of concept", "lab test", "prototype", "demonstration"]
  | 4 => ["laboratory validation", "component test", "bench test", "validated"]
  | 5 => ["field test", "relevant environment", "pilot", "validation"]
  | 6 => ["prototype demonstration", "system test", "beta", "engineering"]
  | 7 => ["pre-production", "qualification", "operational test", "prototype"]
  | 8 => ["production", "qualified", "certified", "compliant", "manufacturing"]
  | 9 => ["deployed", "commercial", "mass production", "proven", "operational"]
  | _ => []

/-- Indicator keywords of a level found in the (already lowercased) text. -/
def levelMatches (text : String) (lvl : Nat) : List String :=
  (trlIndicators lvl).filter (fun ind => strHas text ind)

/-- The descending scan order `range(9, 0, -1)` of the paper path. -/
def scanLevels : List Nat := [9, 8, 7, 6, 5, 4, 3, 2, 1]

/-- The `for … break` loop of `_classify_paper`: first level in scan order
with at least one indicator match, together with its matches. -/
def indicatorScan (text : String) : List Nat → Option (Nat × List String)
  | [] => none
  | lvl :: rest =>
    let ms := levelMatches text lvl
    if ms ≠ [] then some (lvl, ms) else indicatorScan text rest

/-- `TRLProvider._classify_paper`: descending indicator scan with default
TRL 2 / confidence 0.5, clamp to 6 with an adjustment note, confidence
`0.6 + 0.05·matches` on a hit, capped at 0.8. -/
def classifyPaper (p : Paper) : TrlClassification :=
  let text := pyLower (p.title ++ " " ++ p.abstract)
  let scan := indicatorScan text scanLevels
  let detected := match scan with | some (lvl, _) => lvl | none => 2
  let conf0 : ℚ :=
    match scan with
    | some (_, ms) => 0.6 + (ms.length : ℚ) * 0.05
    | none => 0.5
  let reasons0 : List String :=
    match scan with
    | some (_, ms) => ["Indicators: " ++ String.intercalate ", " (ms.take 3)]
    | none => []
  let step : Nat × List String :=
    if detected > 6 then
      (min detected 6, reasons0 ++ ["Adjusted: papers typically describe TRL ≤ 6"])
    else (detected, reasons0)
  { trl := step.1
    confidence := min conf0 0.8
    reasons := step.2 ++ ["Source: academic paper"] }

/-- A component recommendation of stage 9
(`ResultProcessor._recommend_components`). -/
structure Recommendation where
  part_number : String
  manufacturer : String
  trl : Option Nat
  lifecycle : String
  rationale : List String
  deriving DecidableEq, Repr

/-- Lookup in the `sc_map` dict comprehension (later records with the same
part number overwrite earlier ones). -/
def scLookup (supply : List SupplyChainRecord) (pn : String) :
    Option SupplyChainRecord :=
  supply.reverse.find? (fun sc => sc.part_number = pn)

/-- One recommendation record as built by `_recommend_components`. -/
def mkRecommendation (supply : List SupplyChainRecord) (c : Component) :
    Recommendation :=
  let r1 : List String := if c.trl.getD 0 ≥ 8 then ["Production-proven"] else []
  let r2 : List String := if c.lifecycle = "Active" then ["Active lifecycle"] else []
  let r3 : List String :=
    match scLookup supply c.part_number with
    | some sc =>
      let ts := totalStock sc.availability
      if ts > 1000 then ["Good availability (" ++ toString ts ++ " units)"] else []
    | none => []
  { part_number := c.part_number
    manufacturer := c.manufacturer
    trl := c.trl
    lifecycle := c.lifecycle
    rationale := r1 ++ r2 ++ r3 }

/-- `ResultProcessor._recommend_components`: the first five components of the
incoming (stage-7 TRL-ranked) list, each turned into a recommendation. -/
def recommendComponents (components : List Component)
    (supply : List SupplyChainRecord) : List Recommendation :=
  (components.take 5).map (mkRecommendation supply)

/-- `ResultProcessor._assess_supply_chain` result. -/
inductive SupplyStatus where
  | noData
  | stats (status : String) (total_stock : Nat) (active_components : Nat)
      (components_checked : Nat)
  deriving DecidableEq, Repr

/-- `ResultProcessor._assess_supply_chain`. -/
def assessSupplyChain (supply : List SupplyChainRecord) : SupplyStatus :=
  if supply = [] then .noData
  else
    let ts := (supply.map (fun sc => totalStock sc.availability)).sum
    let active := (supply.filter (fun sc => sc.lifecycle = "Active")).length
    .stats (if ts > 5000 then "healthy" else "low_stock") ts active supply.length

/-- Count of records of all three classified types carrying `trl = lvl`. -/
def trlCountAll (rs : Results) (lvl : Nat) : Nat :=
  (rs.papers.filter (fun p => p.trl = some lvl)).length +
  (rs.patents.filter (fun p => p.trl = some lvl)).length +
  (rs.components.filter (fun c => c.trl = some lvl)).length

/-- `ResultProcessor._calculate_trl_distribution`: the `"TRL 1" … "TRL 9"`
histogram as an ordered `(level, count)` list. -/
def trlDistribution (rs : Results) : List (Nat × Nat) :=
  (List.range' 1 9).map (fun i => (i, trlCountAll rs i))

/-- `ResultProcessor._create_summary`. -/
def createSummary (papers : List Paper) (patents : List Patent)
    (components : List Component) : String :=
  "Research completed: Found " ++ toString papers.length
    ++ " academic papers, " ++ toString patents.length ++ " patents, and "
    ++ toString components.length ++ " components. "
    ++ "Analysis includes TRL classification, supply chain assessment, and cross-referencing."

/-- `ResultProcessor._extract_key_findings`. -/
def extractKeyFindings (rs : Results) : List String :=
  let f1 : List String :=
    match rs.papers.take 3 with
    | [] => []
    | p :: _ => ["Recent research highlights: " ++ p.title]
  let prodComponents := rs.components.filter (fun c => c.trl.getD 0 ≥ 8)
  let f2 : List String :=
    if prodComponents ≠ [] then
      [toString prodComponents.length ++ " production-ready components identified"]
    else []
  f1 ++ f2

/-- `ResultProcessor._identify_trends`. -/
def identifyTrends (papers : List Paper) (patents : List Patent) : List String :=
  let t1 : List String :=
    if (papers.filter (fun p => p.year ≥ 2023)).length > 5 then
      ["High research activity in recent years"]
    else []
  let t2 : List String :=
    if (patents.filter
          (fun p => pyStrLe "2023" (String.mk (p.filing_date.data.take 4)))).length > 3 then
      ["Active patent filing indicates commercial interest"]
    else []
  t1 ++ t2

/-- Stage-9 synthesis object. -/
structure Synthesis where
  summary : String
  key_findings : List String
  technology_trends : List String
  component_recommendations : List Recommendation
  supply_chain_status : SupplyStatus
  trl_distribution : List (Nat × Nat)
  deriving DecidableEq, Repr

/-- Stage 9, `ResultProcessor._synthesize_findings`. -/
def synthesizeFindings (rs : Results) : Synthesis :=
  { summary := createSummary rs.papers rs.patents rs.components
    key_findings := extractKeyFindings rs
    technology_trends := identifyTrends rs.papers rs.patents
    component_recommendations := recommendComponents rs.components rs.supply_chain
    supply_chain_status := assessSupplyChain rs.supply_chain
    trl_distribution := trlDistribution rs }

/-- Histogram lookup `trl_dist.get(f"TRL {lvl}", 0)`. -/
def distGet (dist : List (Nat × Nat)) (lvl : Nat) : Nat :=
  match dist.find? (fun e => e.1 = lvl) with
  | some e => e.2
  | none => 0

/-- One-decimal fixed-point rendering of a nonnegative rational, standing in
for Python's `f"{x:.1f}"` on floats (binary-float rounding of the last digit
is not reproduced; no claim depends on it). -/
def formatPct (x : ℚ) : String :=
  let n : Int := Int.floor (x * 10 + 1 / 2)
  toString (n / 10) ++ "." ++ toString (n % 10)

/-- One recommendation block of the report. -/
def reportRecLine (i : Nat) (rec : Recommendation) : String :=
  toString i ++ ". **" ++ rec.part_number ++ "** (" ++ rec.manufacturer ++ ")\n"
    ++ "   - TRL: " ++ (match rec.trl with | some t => toString t | none => "None") ++ "\n"
    ++ "   - Lifecycle: " ++ rec.lifecycle ++ "\n"
    ++ (if rec.rationale ≠ [] then
          "   - Rationale: " ++ String.intercalate ", " rec.rationale ++ "\n"
        else "")
    ++ "\n"

/-- Stage 10, `ResultProcessor._generate_report`.  The generation timestamp is
passed in as `now`; every section is appended under the same emptiness guard
as the source. -/
def generateReport (syn : Synthesis) (q : QueryContext) (now : String) : String :=
  let header := "# EE Research Report\n\n**Query:** " ++ q.query
    ++ "\n\n**Generated:** " ++ now ++ "\n\n"
  let execSummary := "## Executive Summary\n\n" ++ syn.summary ++ "\n\n"
  let findingsSec :=
    if syn.key_findings ≠ [] then
      "## Key Findings\n\n"
        ++ String.join (syn.key_findings.map (fun f => "- " ++ f ++ "\n")) ++ "\n"
    else ""
  let trendsSec :=
    if syn.technology_trends ≠ [] then
      "## Technology Trends\n\n"
        ++ String.join (syn.technology_trends.map (fun t => "- " ++ t ++ "\n")) ++ "\n"
    else ""
  let recs := syn.component_recommendations
  let recsSec :=
    if recs ≠ [] then
      "## Recommended Components\n\n"
        ++ String.join (((List.range' 1 recs.length).zip recs).map
            (fun p => reportRecLine p.1 p.2))
    else ""
  let scSec :=
    match syn.supply_chain_status with
    | .noData => ""
    | .stats status ts active _ =>
      "## Supply Chain Status\n\n- Overall Health: **" ++ pyUpper status
        ++ "**\n- Total Stock: " ++ toString ts
        ++ " units\n- Active Components: " ++ toString active ++ "\n\n"
  let dist := syn.trl_distribution
  let distSec :=
    if (dist.map (fun e => e.2)).sum > 0 then
      "## Technology Readiness Distribution\n\n| TRL Level | Count |\n|-----------|-------|\n"
        ++ String.join ((List.range' 1 9).map (fun lvl =>
            let count := distGet dist lvl
            if count > 0 then
              "| TRL " ++ toString lvl ++ " | " ++ toString count ++ " |\n"
            else ""))
        ++ "\n"
    else ""
  let research := distGet dist 1 + distGet dist 2 + distGet dist 3
  let development := distGet dist 4 + distGet dist 5 + distGet dist 6
  let production := distGet dist 7 + distGet dist 8 + distGet dist 9
  let total := research + development + production
  let maturitySec :=
    if total > 0 then
      "## Maturity Assessment\n\n- Research Phase (TRL 1-3): "
        ++ formatPct ((research : ℚ) / (total : ℚ) * 100)
        ++ "%\n- Development Phase (TRL 4-6): "
        ++ formatPct ((development : ℚ) / (total : ℚ) * 100)
        ++ "%\n- Production Phase (TRL 7-9): "
        ++ formatPct ((production : ℚ) / (total : ℚ) * 100) ++ "%\n\n"
    else ""
  let footer :=
    "---\n\n*This report was generated by EE Research Scout - A Sentient Agent Framework application*\n"
  header ++ execSummary ++ findingsSec ++ trendsSec ++ recsSec ++ scSec
    ++ distSec ++ maturitySec ++ footer

/-- `ResultProcessor._count_findings`. -/
def countFindings (rs : Results) : Nat :=
  rs.papers.length + rs.patents.length + rs.components.length
    + rs.supply_chain.length

/-- Record count of a raw input. -/
def rawCount (raw : RawResults) : Nat :=
  raw.papers.length + raw.patents.length + raw.components.length
    + raw.supply_chain.length

/-- The value bound to the `processed_results` key of the returned dict: the
stage-8 results on success, the untouched raw input on the error path. -/
inductive ProcessedPayload where
  | ok : Results → ProcessedPayload
  | rawEcho : RawResults → ProcessedPayload
  deriving DecidableEq, Repr

/-- Return value of `ResultProcessor.process`.  `metadata` is
`(pipeline_stages, total_findings)`; it is absent on the error path. -/
structure ProcessOutput where
  error : Option String
  processed_results : ProcessedPayload
  synthesis : Option Synthesis
  report : String
  metadata : Option (Nat × Nat)
  deriving DecidableEq, Repr

/-- `ResultProcessor.process`: the ten stages inside one `try`.  `fault`
models the exogenous possibility that some stage raises an unexpected
internal fault carrying message `fault` (the `except Exception` arm);
`none` is the fault-free run. -/
def process (fault : Option String) (raw : RawResults) (q : QueryContext)
    (now : String) : ProcessOutput :=
  match fault with
  | some e =>
    { error := some e
      processed_results := .rawEcho raw
      synthesis := none
      report := "Error processing results"
      metadata := none }
  | none =>
    let rs := pipelineResults raw q
    let syn := synthesizeFindings rs
    { error := none
      processed_results := .ok rs
      synthesis := some syn
      report := generateReport syn q now
      metadata := some (10, countFindings rs) }

/-- Number of records the caller receives under `processed_results`. -/
def returnedRecordCount (o : ProcessOutput) : Nat :=
  match o.processed_results with
  | .ok rs => countFindings rs
  | .rawEcho raw => rawCount raw

/-- Modelled from the spec (§4.7): numeric value of a component's
`efficiency` specification when present.  The source stores specification
values as strings (such as `"95%"`); the leading digits are read as the
number. -/
def efficiencySpec (c : Component) : Option ℚ :=
  match c.specifications.find? (fun kv => kv.1 = "efficiency") with
  | none => none
  | some kv =>
    some ((kv.2.data.takeWhile Char.isDigit).foldl
      (fun n ch => n * 10 + (ch.toNat - 48)) 0 : Nat)

/-- Total stock of the supply-chain record matched to a part number
(0 when none is found). -/
def scStockFor (supply : List SupplyChainRecord) (pn : String) : Nat :=
  match scLookup supply pn with
  | some sc => totalStock sc.availability
  | none => 0

/-- Modelled from the spec (§4.7): the composite recommendation score the
spec says orders the synthesis's recommended components — TRL (≥8: +30,
≥6: +20, else +10), lifecycle (Active: +25, NRND: +5, else 0), total stock
(>1000: +20, >100: +10, else 0), and `efficiency/100 × 25` when present. -/
def specCompositeScore (c : Component) (supply : List SupplyChainRecord) : ℚ :=
  (if c.trl.getD 0 ≥ 8 then 30 else if c.trl.getD 0 ≥ 6 then 20 else 10)
  + (if c.lifecycle = "Active" then 25 else if c.lifecycle = "NRND" then 5 else 0)
  + (if scStockFor supply c.part_number > 1000 then 20
     else if scStockFor supply c.part_number > 100 then 10 else 0)
  + (match efficiencySpec c with
     | some e => e / 100 * 25
     | none => 0)

/-- Modelled from the spec (§8, Scenario F): the report "header" — the title,
query and generation-time lines preceding all data-dependent sections, which
Scenario F says is all that an all-empty invocation produces. -/
def specHeaderOnly (q : QueryContext) (now : String) : String :=
  "# EE Research Report\n\n**Query:** " ++ q.query
    ++ "\n\n**Generated:** " ++ now ++ "\n\n"

theorem str_append_empty (s : String) : s ++ "" = s := by
  cases s with
  | mk data => show String.mk (data ++ []) = String.mk data
               rw [List.append_nil]

theorem dedupGo_sublist (key : α → Option κ) [DecidableEq κ] :
    ∀ (l : List α) (seen : List κ), List.Sublist (dedupGo key l seen) l := by
  intro l
  induction l with
  | nil => intro seen; simp [dedupGo]
  | cons x xs ih =>
    intro seen
    simp only [dedupGo]
    cases hk : key x with
    | none => exact (ih seen).cons x
    | some k =>
      by_cases hmem : k ∈ seen
      · simp only [if_pos hmem]
        exact (ih seen).cons x
      · simp only [if_neg hmem]
        exact (ih (k :: seen)).cons₂ x

theorem dedupGo_keys (key : α → Option κ) [DecidableEq κ] :
    ∀ (l : List α) (seen : List κ),
      (∀ x ∈ dedupGo key l seen, ∃ k, key x = some k ∧ k ∉ seen)
      ∧ (dedupGo key l seen).Pairwise (fun a b => key a ≠ key b) := by
  intro l
  induction l with
  | nil => intro seen; simp [dedupGo]
  | cons x xs ih =>
    intro seen
    simp only [dedupGo]
    cases hk : key x with
    | none => exact ih seen
    | some k =>
      by_cases hmem : k ∈ seen
      · simp only [if_pos hmem]; exact ih seen
      · simp only [if_neg hmem]
        obtain ⟨ihmem, ihpw⟩ := ih (k :: seen)
        constructor
        · intro y hy
          rcases List.mem_cons.mp hy with hy | hy
          · subst hy; exact ⟨k, hk, hmem⟩
          · obtain ⟨k', hk', hk'seen⟩ := ihmem y hy
            exact ⟨k', hk', fun h => hk'seen (List.mem_cons_of_mem _ h)⟩
        · refine List.Pairwise.cons ?_ ihpw
          intro y hy hkey
          obtain ⟨k', hk', hk'seen⟩ := ihmem y hy
          apply hk'seen
          have hsome : some k = some k' := by rw [← hk, hkey, hk']
          have hkeq : k = k' := Option.some.inj hsome
          subst hkeq
          exact List.mem_cons_self k seen

theorem dedupGo_fixed (key : α → Option κ) [DecidableEq κ] :
    ∀ (m : List α) (seen : List κ),
      (∀ x ∈ m, ∃ k, key x = some k ∧ k ∉ seen) →
      m.Pairwise (fun a b => key a ≠ key b) →
      dedupGo key m seen = m := by
  intro m
  induction m with
  | nil => intro seen _ _; rfl
  | cons x xs ih =>
    intro seen hmem hpw
    obtain ⟨k, hk, hkseen⟩ := hmem x (List.mem_cons_self x xs)
    simp only [dedupGo, hk, if_neg hkseen]
    congr 1
    apply ih
    · intro y hy
      obtain ⟨k', hk', hk'seen⟩ := hmem y (List.mem_cons_of_mem _ hy)
      refine ⟨k', hk', ?_⟩
      intro hmem'
      rcases List.mem_cons.mp hmem' with h | h
      · exact (List.pairwise_cons.mp hpw).1 y hy (by rw [hk, hk', h])
      · exact hk'seen h
    · exact (List.pairwise_cons.mp hpw).2

theorem dedupGo_idem (key : α → Option κ) [DecidableEq κ]
    (l : List α) (seen : List κ) :
    dedupGo key (dedupGo key l seen) seen = dedupGo key l seen :=
  dedupGo_fixed key _ seen (dedupGo_keys key l seen).1 (dedupGo_keys key l seen).2

theorem dedupGo_filter_key (key : α → Option κ) [DecidableEq κ] (k : κ) :
    ∀ (l : List α) (seen : List κ),
      (dedupGo key l seen).filter (fun x => key x = some k)
        = if k ∈ seen then []
          else (l.filter (fun x => key x = some k)).take 1 := by
  intro l
  induction l with
  | nil => intro seen; simp [dedupGo]
  | cons x xs ih =>
    intro seen
    simp only [dedupGo]
    cases hk : key x with
    | none =>
      rw [ih seen]
      by_cases hks : k ∈ seen
      · simp [hks]
      · simp [hks, List.filter_cons, hk]
    | some k' =>
      by_cases hmem : k' ∈ seen
      · simp only [if_pos hmem]
        rw [ih seen]
        by_cases hks : k ∈ seen
        · simp [hks]
        · have hne : k' ≠ k := fun h => hks (h ▸ hmem)
          simp [hks, List.filter_cons, hk, hne]
      · simp only [if_neg hmem]
        by_cases hkk : k' = k
        · subst hkk
          simp [List.filter_cons, hk, ih, hmem]
        · have hkk2 : ¬ k = k' := fun h => hkk h.symm
          simp [List.filter_cons, hk, hkk, ih, List.mem_cons, hkk2]

theorem mem_stableInsert (le : α → α → Bool) (x : α) :
    ∀ (l : List α) (y : α), y ∈ stableInsert le x l ↔ y = x ∨ y ∈ l := by
  intro l
  induction l with
  | nil => intro y; simp [stableInsert]
  | cons z zs ih =>
    intro y
    simp only [stableInsert]
    by_cases h : le x z = true
    · simp [h, List.mem_cons]
    · rw [Bool.not_eq_true] at h
      simp only [h, Bool.false_eq_true, if_false, List.mem_cons, ih]
      tauto

theorem mem_pySort (le : α → α → Bool) :
    ∀ (l : List α) (y : α), y ∈ pySort le l ↔ y ∈ l := by
  intro l
  induction l with
  | nil => intro y; simp [pySort]
  | cons z zs ih =>
    intro y
    show y ∈ stableInsert le z (pySort le zs) ↔ _
    rw [mem_stableInsert]
    simp [ih, List.mem_cons]

theorem indicatorScan_none (text : String) :
    ∀ L, (∀ lvl ∈ L, levelMatches text lvl = []) → indicatorScan text L = none := by
  intro L
  induction L with
  | nil => intro _; rfl
  | cons lvl rest ih =>
    intro h
    simp only [indicatorScan, h lvl (List.mem_cons_self lvl rest), ne_eq,
      not_true_eq_false, if_false]
    exact ih fun l hl => h l (List.mem_cons_of_mem _ hl)

theorem indicatorScan_some (text : String) :
    ∀ L lvl ms, indicatorScan text L = some (lvl, ms) →
      lvl ∈ L ∧ ms = levelMatches text lvl ∧ ms ≠ [] := by
  intro L
  induction L with
  | nil => intro lvl ms h; simp [indicatorScan] at h
  | cons a rest ih =>
    intro lvl ms h
    simp only [indicatorScan] at h
    by_cases hm : levelMatches text a ≠ []
    · rw [if_pos hm] at h
      obtain ⟨h1, h2⟩ := Prod.mk.injEq _ _ _ _ ▸ Option.some.inj h
      subst h1; subst h2
      exact ⟨List.mem_cons_self a rest, rfl, hm⟩
    · rw [if_neg hm] at h
      obtain ⟨h1, h2, h3⟩ := ih lvl ms h
      exact ⟨List.mem_cons_of_mem _ h1, h2, h3⟩

theorem indicatorScan_first (text : String) :
    ∀ L, L.Pairwise (fun a b => a > b) →
      ∀ lvl ms, indicatorScan text L = some (lvl, ms) →
      ∀ l' ∈ L, l' > lvl → levelMatches text l' = [] := by
  intro L
  induction L with
  | nil => intro _ lvl ms h; simp [indicatorScan] at h
  | cons a rest ih =>
    intro hpw lvl ms h l' hl' hgt
    simp only [indicatorScan] at h
    by_cases hm : levelMatches text a ≠ []
    · rw [if_pos hm] at h
      have ha : a = lvl := congrArg Prod.fst (Option.some.inj h)
      subst ha
      rcases List.mem_cons.mp hl' with h' | h'
      · omega
      · have := (List.pairwise_cons.mp hpw).1 l' h'
        omega
    · rw [if_neg hm] at h
      rcases List.mem_cons.mp hl' with h' | h'
      · subst h'
        simpa using hm
      · exact ih (List.pairwise_cons.mp hpw).2 lvl ms h l' h' hgt

/-- C1: for every component whose lifecycle is "Active",
`TRLProvider._classify_component` assigns TRL 9 when the summed stock exceeds
1000 and at least two distributors have positive stock, TRL 8 when the summed
stock exceeds 100, and TRL 7 otherwise; when at least one distributor entry is
present the confidence is at least 0.8. -/
theorem C1_active_component_trl (c : Component) (h : c.lifecycle = "Active") :
    ((classifyComponent c).trl =
      if totalStock c.availability > 1000 ∧ distributorCount c.availability ≥ 2 then 9
      else if totalStock c.availability > 100 then 8
      else 7)
    ∧ (c.availability ≠ [] → (classifyComponent c).confidence ≥ 0.8) := by
  have hlc : pyLower c.lifecycle = "active" := by rw [h]; rfl
  constructor
  · simp only [classifyComponent, hlc]
    norm_num
    split_ifs <;> simp_all
  · intro hav
    simp only [classifyComponent, hlc, hav]
    norm_num
    split_ifs <;> norm_num

/-- Scenario B component: lifecycle "Active", 1500 units of stock across
three distributors. -/
def scenarioB : Component :=
  { part_number := "X1", manufacturer := "m", category := "", lifecycle := "Active",
    availability := [("d1", ⟨500, none⟩), ("d2", ⟨500, none⟩), ("d3", ⟨500, none⟩)] }

/-- C1 witness: Scenario B is classified TRL 9 with confidence ≥ 0.8. -/
theorem C1_witness :
    (classifyComponent scenarioB).trl = 9
    ∧ (classifyComponent scenarioB).confidence ≥ 0.8 := by
  have h := C1_active_component_trl scenarioB rfl
  refine ⟨?_, h.2 (by decide)⟩
  rw [h.1]
  decide

/-- C2 (amended): every cross-reference edge built by the CrossReferencer has
both endpoint identity keys among the records of the lists it consumed
(stage-6 input); the stage-7 ranking truncation can later drop endpoint
records without pruning edges. -/
theorem C2_cross_reference_endpoints (rs : Results) :
    (∀ e ∈ (crossReference rs).cross_references.paper_to_patent,
      (∃ p ∈ rs.papers, p.title = e.1) ∧ ∃ t ∈ rs.patents, t.patent_number = e.2)
    ∧ (∀ e ∈ (crossReference rs).cross_references.patent_to_component,
      (∃ t ∈ rs.patents, t.patent_number = e.1)
        ∧ ∃ c ∈ rs.components, c.part_number = e.2) := by
  constructor
  · intro e he
    simp only [crossReference, List.mem_flatMap, List.mem_filterMap] at he
    obtain ⟨p, hp, t, ht, hcond⟩ := he
    by_cases hc : (pyLower t.patent_number ≠ ""
        ∧ strHas (pyLower (p.title ++ " " ++ p.abstract)) (pyLower t.patent_number))
    · rw [if_pos hc] at hcond
      have he' := Option.some.inj hcond
      exact ⟨⟨p, hp, by rw [← he']⟩, ⟨t, ht, by rw [← he']⟩⟩
    · rw [if_neg hc] at hcond; cases hcond
  · intro e he
    simp only [crossReference, List.mem_flatMap, List.mem_filterMap] at he
    obtain ⟨t, ht, c, hc', hcond⟩ := he
    by_cases hc : (pyLower c.category ≠ ""
        ∧ strHas (pyLower (t.title ++ " " ++ t.abstract)) (pyLower c.category))
    · rw [if_pos hc] at hcond
      have he' := Option.some.inj hcond
      exact ⟨⟨t, ht, by rw [← he']⟩, ⟨c, hc', by rw [← he']⟩⟩
    · rw [if_neg hc] at hcond; cases hcond

/-- Stage-6 input exercising both edge kinds. -/
def c2rs : Results :=
  { papers := [{ title := "t us1", authors := ["a"], year := 0, abstract := "", doi := "" }]
    patents := [{ patent_number := "us1", title := "x", abstract := "a cap",
                  status := "", filing_date := "" }]
    components := [{ part_number := "c9", manufacturer := "m", category := "cap",
                     lifecycle := "" }]
    supply_chain := [] }

/-- C2 witness: the endpoint theorem applied to a concrete edge of `c2rs`. -/
theorem C2_witness :
    ((∃ p ∈ c2rs.papers, p.title = "t us1") ∧ ∃ t ∈ c2rs.patents, t.patent_number = "us1")
    ∧ ((∃ t ∈ c2rs.patents, t.patent_number = "us1")
        ∧ ∃ c ∈ c2rs.components, c.part_number = "c9") := by
  exact ⟨(C2_cross_reference_endpoints c2rs).1 ("t us1", "us1") (by decide),
    (C2_cross_reference_endpoints c2rs).2 ("us1", "c9") (by decide)⟩

/-- 21 patents: `p0` is the only one whose text mentions the component
category, and its empty filing date ranks it last, so the stage-7 cut to the
top 20 drops it while its edge survives. -/
def c2cexPatent (i : Nat) : Patent :=
  { patent_number := "p" ++ toString i
    title := "t"
    abstract := if i = 0 then "a cap" else "a"
    status := ""
    filing_date := if i = 0 then "" else "2020" }

/-- Raw pipeline input for the C2 counterexample. -/
def c2cexRaw : RawResults :=
  { papers := []
    patents := (List.range 21).map c2cexPatent
    components := [{ part_number := "c1", manufacturer := "m", category := "cap",
                     lifecycle := "" }]
    supply_chain := [] }

/-- C2 counterexample: in the pipeline's final output the edge
`("p0", "c1")` survives although no returned patent is `p0` — a dangling
cross-reference edge in the post-filter result set. -/
theorem C2_counterexample :
    ("p0", "c1") ∈ (pipelineResults c2cexRaw { query := "" }).cross_references.patent_to_component
    ∧ ∀ t ∈ (pipelineResults c2cexRaw { query := "" }).patents, t.patent_number ≠ "p0" := by
  decide

/-- C3 (amended): `TRLProvider._classify_paper` scans the indicator table
descending from TRL 9 and returns the first level with a match, clamped to 6
with the adjustment noted in the reasons; with no match it returns TRL 2 —
but then the confidence is the initial 0.5, not `0.6 + 0.05·0`; the
`0.6 + 0.05 × matches` formula (capped at 0.8) applies only when at least one
indicator matched. -/
theorem C3_paper_classification (p : Paper) :
    ((∀ lvl ∈ scanLevels,
        levelMatches (pyLower (p.title ++ " " ++ p.abstract)) lvl = []) →
      (classifyPaper p).trl = 2 ∧ (classifyPaper p).confidence = 0.5)
    ∧ (∀ lvl ms,
        indicatorScan (pyLower (p.title ++ " " ++ p.abstract)) scanLevels
          = some (lvl, ms) →
        ms = levelMatches (pyLower (p.title ++ " " ++ p.abstract)) lvl
        ∧ ms ≠ []
        ∧ (∀ l' ∈ scanLevels, l' > lvl →
            levelMatches (pyLower (p.title ++ " " ++ p.abstract)) l' = [])
        ∧ (classifyPaper p).trl = min lvl 6
        ∧ (classifyPaper p).confidence = min (0.6 + (ms.length : ℚ) * 0.05) 0.8
        ∧ (6 < lvl →
            "Adjusted: papers typically describe TRL ≤ 6" ∈ (classifyPaper p).reasons)) := by
  constructor
  · intro hempty
    have hscan := indicatorScan_none (pyLower (p.title ++ " " ++ p.abstract))
      scanLevels hempty
    constructor
    · simp only [classifyPaper, hscan]
      norm_num
    · simp only [classifyPaper, hscan]
      norm_num
  · intro lvl ms hscan
    obtain ⟨hmem, hms, hne⟩ :=
      indicatorScan_some (pyLower (p.title ++ " " ++ p.abstract)) scanLevels lvl ms hscan
    refine ⟨hms, hne, ?_, ?_, ?_, ?_⟩
    · exact indicatorScan_first (pyLower (p.title ++ " " ++ p.abstract)) scanLevels
        (by decide) lvl ms hscan
    · simp only [classifyPaper, hscan]
      split_ifs with h6
      · rfl
      · show lvl = min lvl 6
        omega
    · simp only [classifyPaper, hscan]
    · intro h6
      simp only [classifyPaper, hscan]
      rw [if_pos h6]
      simp

/-- The paper used to exercise the matched-indicator branch: its abstract
contains the TRL-9 indicator "deployed". -/
def paperDeployed : Paper :=
  { title := "", authors := [], year := 0, abstract := "deployed", doi := "" }

/-- C3 witness: the amended theorem applied to `paperDeployed` — first hit at
level 9 with one match, clamped to TRL 6, confidence 0.65, adjustment noted. -/
theorem C3_witness :
    (classifyPaper paperDeployed).trl = 6
    ∧ (classifyPaper paperDeployed).confidence = 0.65
    ∧ "Adjusted: papers typically describe TRL ≤ 6" ∈ (classifyPaper paperDeployed).reasons := by
  have h := (C3_paper_classification paperDeployed).2 9 ["deployed"] (by decide)
  refine ⟨?_, ?_, h.2.2.2.2.2 (by norm_num)⟩
  · rw [h.2.2.2.1]
    decide
  · rw [h.2.2.2.2.1]
    decide

/-- A paper with no indicator matches at all. -/
def emptyPaper : Paper :=
  { title := "", authors := [], year := 0, abstract := "", doi := "" }

/-- C3 counterexample: with zero matched indicator keywords the code returns
confidence 0.5, while the claim's formula `0.6 + 0.05 × 0` (capped at 0.8)
demands 0.6 — so the confidence formula does not hold "in every case". -/
theorem C3_counterexample :
    indicatorScan (pyLower (emptyPaper.title ++ " " ++ emptyPaper.abstract)) scanLevels = none
    ∧ (classifyPaper emptyPaper).confidence = 0.5
    ∧ ((0.5 : ℚ) ≠ 0.6 + (0 : ℚ) * 0.05) := by
  refine ⟨by decide, by decide, by norm_num⟩

theorem goodAvail_ne (n : Nat) :
    ("Good availability (" ++ toString n ++ " units)") ≠ "Production-proven"
    ∧ ("Good availability (" ++ toString n ++ " units)") ≠ "Active lifecycle" := by
  have h1 : ("Good availability (" : String).length = 19 := rfl
  have h2 : (" units)" : String).length = 7 := rfl
  have h3 : ("Production-proven" : String).length = 17 := rfl
  have h4 : ("Active lifecycle" : String).length = 16 := rfl
  constructor
  · intro h
    have hlen := congrArg String.length h
    rw [String.length_append, String.length_append, h1, h2, h3] at hlen
    omega
  · intro h
    have hlen := congrArg String.length h
    rw [String.length_append, String.length_append, h1, h2, h4] at hlen
    omega

/-- C4 (amended): the synthesis's component recommendations are the first
five components of the stage-7 TRL-ranked list, kept in that order (no
composite-score re-sort and no pros/cons); each rationale contains
"Production-proven" iff TRL ≥ 8, "Active lifecycle" iff the lifecycle is
exactly "Active", and a third (availability) entry iff the matched
supply-chain record's total stock exceeds 1000. -/
theorem C4_recommendation_shape (components : List Component)
    (supply : List SupplyChainRecord) :
    ((recommendComponents components supply).map (fun r => r.part_number)
      = (components.take 5).map (fun c => c.part_number))
    ∧ (∀ c ∈ components.take 5,
        ("Production-proven" ∈ (mkRecommendation supply c).rationale
            ↔ c.trl.getD 0 ≥ 8)
        ∧ ("Active lifecycle" ∈ (mkRecommendation supply c).rationale
            ↔ c.lifecycle = "Active")
        ∧ ((∃ s ∈ (mkRecommendation supply c).rationale,
              s ≠ "Production-proven" ∧ s ≠ "Active lifecycle")
            ↔ scStockFor supply c.part_number > 1000)) := by
  constructor
  · rw [recommendComponents, List.map_map]
    rfl
  · intro c _
    rcases hsc : scLookup supply c.part_number with _ | sc
    · have hstock : scStockFor supply c.part_number = 0 := by
        simp [scStockFor, hsc]
      simp only [mkRecommendation, hsc, hstock]
      split_ifs <;> simp_all [List.mem_append]
    · have hstock : scStockFor supply c.part_number = totalStock sc.availability := by
        simp [scStockFor, hsc]
      have hg1 := (goodAvail_ne (totalStock sc.availability)).1
      have hg2 := (goodAvail_ne (totalStock sc.availability)).2
      have hg1' : ¬ ("Production-proven"
          = "Good availability (" ++ toString (totalStock sc.availability) ++ " units)") :=
        fun h => hg1 h.symm
      have hg2' : ¬ ("Active lifecycle"
          = "Good availability (" ++ toString (totalStock sc.availability) ++ " units)") :=
        fun h => hg2 h.symm
      simp only [mkRecommendation, hsc, hstock]
      split_ifs <;> simp_all [List.mem_append]

/-- A TRL-9 component with no active lifecycle and no stock (composite
score 30 under the spec's formula). -/
def c4a : Component :=
  { part_number := "a", manufacturer := "m", category := "", lifecycle := "Obsolete",
    trl := some 9 }

/-- A TRL-8 Active component with 2000 units of stock (composite score 75). -/
def c4b : Component :=
  { part_number := "b", manufacturer := "m", category := "", lifecycle := "Active",
    trl := some 8 }

/-- Supply-chain record backing `c4b`. -/
def c4sc : SupplyChainRecord :=
  { part_number := "b", lifecycle := "Active", availability := [("d", ⟨2000, none⟩)] }

/-- C4 counterexample: in the synthesis, recommendations keep the stage-7
order `[a, b]` even though the spec's composite score of `b` (75) exceeds
that of `a` (30) — so they are not ordered descending by composite score. -/
theorem C4_counterexample :
    ((recommendComponents [c4a, c4b] [c4sc]).map (fun r => r.part_number) = ["a", "b"])
    ∧ specCompositeScore c4b [c4sc] > specCompositeScore c4a [c4sc] := by
  constructor
  · decide
  · decide

/-- C4 witness: the amended theorem applied to the concrete list `[c4a, c4b]`. -/
theorem C4_witness :
    ((recommendComponents [c4a, c4b] [c4sc]).map (fun r => r.part_number) = ["a", "b"])
    ∧ ("Production-proven" ∈ (mkRecommendation [c4sc] c4a).rationale ↔ c4a.trl.getD 0 ≥ 8)
    ∧ ((∃ s ∈ (mkRecommendation [c4sc] c4b).rationale,
          s ≠ "Production-proven" ∧ s ≠ "Active lifecycle")
        ↔ scStockFor [c4sc] c4b.part_number > 1000) := by
  have h := C4_recommendation_shape [c4a, c4b] [c4sc]
  exact ⟨h.1.trans (by decide), (h.2 c4a (by decide)).1,
    (h.2 c4b (by decide)).2.2⟩

/-- C5 (amended): after stage 1, identity keys are unique within papers
(DOI with title-hash fallback), patents (patent_number) and components
(part_number); the supply-chain list is passed through unchanged, so
duplicate supply-chain part numbers can survive stage 1. -/
theorem C5_identity_key_unique (raw : RawResults) :
    ((dedupStage raw).papers.Pairwise (fun a b => paperKey a ≠ paperKey b))
    ∧ ((dedupStage raw).patents.Pairwise (fun a b => a.patent_number ≠ b.patent_number))
    ∧ ((dedupStage raw).components.Pairwise (fun a b => a.part_number ≠ b.part_number))
    ∧ (dedupStage raw).supply_chain = raw.supply_chain := by
  refine ⟨?_, ?_, ?_, rfl⟩
  · exact ((dedupGo_keys (fun p : Paper => some (paperKey p)) raw.papers []).2).imp
      (fun hab heq => hab (by rw [heq]))
  · exact ((dedupGo_keys patentKey raw.patents []).2).imp
      (fun hab heq => hab (by simp [patentKey, heq]))
  · exact ((dedupGo_keys componentKey raw.components []).2).imp
      (fun hab heq => hab (by simp [componentKey, heq]))

/-- C5 counterexample: two supply-chain records with the same part number
both survive stage 1, so identity keys are not unique for supply-chain
records. -/
theorem C5_counterexample :
    ((dedupStage
      { papers := []
        patents := []
        components := []
        supply_chain :=
          [{ part_number := "x", lifecycle := "Active", availability := [] },
           { part_number := "x", lifecycle := "", availability := [] }] }).supply_chain.map
      (fun sc => sc.part_number)) = ["x", "x"] := by
  decide

/-- C7 (amended): each per-type deduplication (papers, patents, components)
and the whole stage are idempotent; the surviving list is a sublist of the
input (first-seen order, fields unmerged); and for papers, patents and
components the records sharing an identity key are collapsed to the first
occurrence — the supply-chain list, by contrast, is passed through unchanged
(its duplicates are retained, not dropped). -/
theorem C7_dedup_idempotent (l₁ : List Paper) (l₂ : List Patent)
    (l₃ : List Component) (raw : RawResults) :
    (dedupPapers (dedupPapers l₁) = dedupPapers l₁)
    ∧ (dedupPatents (dedupPatents l₂) = dedupPatents l₂)
    ∧ (dedupComponents (dedupComponents l₃) = dedupComponents l₃)
    ∧ (dedupStage
        { papers := (dedupStage raw).papers
          patents := (dedupStage raw).patents
          components := (dedupStage raw).components
          supply_chain := (dedupStage raw).supply_chain } = dedupStage raw)
    ∧ List.Sublist (dedupPapers l₁) l₁
    ∧ List.Sublist (dedupPatents l₂) l₂
    ∧ List.Sublist (dedupComponents l₃) l₃
    ∧ (∀ k : PaperKey, (dedupPapers l₁).filter (fun p => paperKey p = k)
        = (l₁.filter (fun p => paperKey p = k)).take 1)
    ∧ (∀ k : String, (dedupPatents l₂).filter (fun p => patentKey p = some k)
        = (l₂.filter (fun p => patentKey p = some k)).take 1)
    ∧ (∀ k : String, (dedupComponents l₃).filter (fun c => componentKey c = some k)
        = (l₃.filter (fun c => componentKey c = some k)).take 1) := by
  have hp : ∀ l : List Paper, dedupPapers (dedupPapers l) = dedupPapers l :=
    fun l => dedupGo_idem _ l []
  have ht : ∀ l : List Patent, dedupPatents (dedupPatents l) = dedupPatents l :=
    fun l => dedupGo_idem _ l []
  have hc : ∀ l : List Component, dedupComponents (dedupComponents l) = dedupComponents l :=
    fun l => dedupGo_idem _ l []
  refine ⟨hp l₁, ht l₂, hc l₃, ?_, dedupGo_sublist _ l₁ [], dedupGo_sublist _ l₂ [],
    dedupGo_sublist _ l₃ [], ?_, ?_, ?_⟩
  · show Results.mk _ _ _ _ _ _ = Results.mk _ _ _ _ _ _
    rw [show (dedupStage raw).papers = dedupPapers raw.papers from rfl]
    rw [show (dedupStage raw).patents = dedupPatents raw.patents from rfl]
    rw [show (dedupStage raw).components = dedupComponents raw.components from rfl]
    simp only [dedupStage, hp, ht, hc]
  · intro k
    have h := dedupGo_filter_key (fun p : Paper => some (paperKey p)) k l₁ []
    rw [if_neg (List.not_mem_nil k)] at h
    have hcong : ∀ (m : List Paper),
        m.filter (fun p => paperKey p = k)
          = m.filter (fun p => (some (paperKey p) : Option PaperKey) = some k) := by
      intro m
      apply List.filter_congr
      intro a _
      simp
    rw [hcong, hcong]
    exact h
  · intro k
    have h := dedupGo_filter_key patentKey k l₂ []
    rw [if_neg (List.not_mem_nil k)] at h
    exact h
  · intro k
    have h := dedupGo_filter_key componentKey k l₃ []
    rw [if_neg (List.not_mem_nil k)] at h
    exact h

/-- C7 counterexample: a later supply-chain record sharing the identity key
"y" with an earlier one is not dropped by stage 1, contradicting "later
duplicates are dropped". -/
theorem C7_counterexample :
    (dedupStage
      { papers := []
        patents := []
        components := []
        supply_chain :=
          [{ part_number := "y", lifecycle := "Active", availability := [] },
           { part_number := "y", lifecycle := "Obsolete", availability := [] }] }).supply_chain
      = [{ part_number := "y", lifecycle := "Active", availability := [] },
         { part_number := "y", lifecycle := "Obsolete", availability := [] }] := by
  decide

theorem supplyRegionHit_iff (sc : SupplyChainRecord) (regions : List String) :
    supplyRegionHit sc regions = true
      ↔ ∃ d ∈ sc.availability, ∃ r, d.2.region = some r ∧ r ∈ regions := by
  simp only [supplyRegionHit, List.any_eq_true]
  constructor
  · rintro ⟨d, hd, hmatch⟩
    refine ⟨d, hd, ?_⟩
    cases hreg : d.2.region with
    | none => rw [hreg] at hmatch; cases hmatch
    | some r =>
      rw [hreg] at hmatch
      exact ⟨r, rfl, by simpa using hmatch⟩
  · rintro ⟨d, hd, r, hreg, hr⟩
    refine ⟨d, hd, ?_⟩
    rw [hreg]
    simpa using hr

/-- C8: the RegionalFilter never excludes a component on manufacturer origin
(`_is_regional_match` ends in an unconditional `return True`, so the
component list is unchanged), while a supply-chain record survives stage 4
iff some distributor entry carries a region in the target-region set. -/
theorem C8_regional_filter (rs : Results) (q : QueryContext) :
    ((filterRegional rs q).components = rs.components)
    ∧ (∀ (m : String) (regions : List String), isRegionalMatch m regions = true)
    ∧ (∀ sc, sc ∈ (filterRegional rs q).supply_chain
        ↔ sc ∈ rs.supply_chain
          ∧ ∃ d ∈ sc.availability, ∃ r, d.2.region = some r
              ∧ r ∈ q.regions.getD ["EU", "Asia"]) := by
  have hall : ∀ (m : String) (regions : List String), isRegionalMatch m regions = true := by
    intro m regions
    simp only [isRegionalMatch]
    split_ifs <;> rfl
  refine ⟨?_, hall, ?_⟩
  · show rs.components.filter _ = rs.components
    exact List.filter_eq_self.mpr
      (fun c _ => hall c.manufacturer (q.regions.getD ["EU", "Asia"]))
  · intro sc
    show sc ∈ rs.supply_chain.filter _ ↔ _
    rw [List.mem_filter]
    exact and_congr_right (fun _ => supplyRegionHit_iff sc _)

theorem dedupGo_covers (key : α → Option κ) [DecidableEq κ] :
    ∀ (l : List α) (seen : List κ) (x : α), x ∈ l →
      ∀ k, key x = some k → k ∉ seen →
      ∃ y ∈ dedupGo key l seen, key y = key x := by
  intro l
  induction l with
  | nil => intro seen x hx; cases hx
  | cons a as ih =>
    intro seen x hx k hk hks
    simp only [dedupGo]
    rcases List.mem_cons.mp hx with rfl | hx'
    · simp only [hk, if_neg hks]
      exact ⟨x, List.mem_cons_self _ _, hk⟩
    · cases hka : key a with
      | none => exact ih seen x hx' k hk hks
      | some ka =>
        by_cases hmem : ka ∈ seen
        · simp only [if_pos hmem]
          exact ih seen x hx' k hk hks
        · simp only [if_neg hmem]
          by_cases hkk : ka = k
          · subst hkk
            exact ⟨a, List.mem_cons_self _ _, by rw [hka, hk]⟩
          · obtain ⟨y, hy, hyk⟩ := ih (ka :: seen) x hx' k hk (by
              intro h
              rcases List.mem_cons.mp h with h | h
              · exact hkk h.symm
              · exact hks h)
            exact ⟨y, List.mem_cons_of_mem _ hy, hyk⟩

theorem classifyStagePatent_pn (p : Patent) :
    (classifyStagePatent p).patent_number = p.patent_number := by
  cases h : p.trl <;> simp [classifyStagePatent, h]

theorem classifyStageComponent_pn (c : Component) :
    (classifyStageComponent c).part_number = c.part_number := by
  cases h : c.trl <;> simp [classifyStageComponent, h]

theorem dedupPatents_pn_present :
    ∀ (l : List Patent) (p : Patent), p ∈ dedupPatents l → p.patent_number ≠ "" := by
  intro l p hp hpn
  obtain ⟨k, hk, _⟩ := (dedupGo_keys patentKey l []).1 p hp
  rw [patentKey, if_neg (by simp [hpn])] at hk
  cases hk

theorem dedupComponents_pn_present :
    ∀ (l : List Component) (c : Component), c ∈ dedupComponents l → c.part_number ≠ "" := by
  intro l c hc hpn
  obtain ⟨k, hk, _⟩ := (dedupGo_keys componentKey l []).1 c hc
  rw [componentKey, if_neg (by simp [hpn])] at hk
  cases hk

theorem pipeline_patents_pn_from_dedup (raw : RawResults) (qc : QueryContext) :
    ∀ p ∈ (pipelineResults raw qc).patents,
      ∃ p₀ ∈ dedupPatents raw.patents, p.patent_number = p₀.patent_number := by
  intro p hp
  have hp1 : p ∈ (pySort (fun a b => pyStrLe b.filing_date a.filing_date)
      ((classifyTrlStage (filterRegional (filterRelevance
        (filterQuality (dedupStage raw)) qc) qc)).patents)).take 20 := hp
  have hp2 := (mem_pySort _ _ p).mp (List.mem_of_mem_take hp1)
  obtain ⟨p₁, hp₁, rfl⟩ := List.mem_map.mp hp2
  have h3 : p₁ ∈ (filterRelevance (filterQuality (dedupStage raw)) qc).patents := hp₁
  have h2 : p₁ ∈ (filterQuality (dedupStage raw)).patents := List.mem_of_mem_filter h3
  have h1 : p₁ ∈ dedupPatents raw.patents := List.mem_of_mem_filter h2
  exact ⟨p₁, h1, classifyStagePatent_pn p₁⟩

theorem pipeline_components_pn_from_dedup (raw : RawResults) (qc : QueryContext) :
    ∀ c ∈ (pipelineResults raw qc).components,
      ∃ c₀ ∈ dedupComponents raw.components, c.part_number = c₀.part_number := by
  intro c hc
  have hc1 : c ∈ (pySort (fun a b => decide (b.trl.getD 0 ≤ a.trl.getD 0))
      ((classifyTrlStage (filterRegional (filterRelevance
        (filterQuality (dedupStage raw)) qc) qc)).components)).take 30 := hc
  have hc2 := (mem_pySort _ _ c).mp (List.mem_of_mem_take hc1)
  obtain ⟨c₁, hc₁, rfl⟩ := List.mem_map.mp hc2
  have h4 : c₁ ∈ (filterRegional (filterRelevance (filterQuality
      (dedupStage raw)) qc) qc).components := hc₁
  have h3 : c₁ ∈ (filterRelevance (filterQuality (dedupStage raw)) qc).components :=
    List.mem_of_mem_filter h4
  have h2 : c₁ ∈ (filterQuality (dedupStage raw)).components := h3
  have h1 : c₁ ∈ dedupComponents raw.components := List.mem_of_mem_filter h2
  exact ⟨c₁, h1, classifyStageComponent_pn c₁⟩

/-- C10: at stage 1 every patent without a `patent_number` and every
component without a `part_number` is dropped outright (so no such record
survives stage 1 or any later pipeline stage), while papers are never
dropped at stage 1 for a missing DOI — the title-hash fallback always yields
an identity key, so every input paper's key is represented in the output. -/
theorem C10_stage1_missing_keys :
    (∀ (l : List Patent) (p : Patent), p ∈ dedupPatents l → p.patent_number ≠ "")
    ∧ (∀ (l : List Component) (c : Component), c ∈ dedupComponents l → c.part_number ≠ "")
    ∧ (∀ (l : List Paper) (p : Paper), p ∈ l →
        ∃ q ∈ dedupPapers l, paperKey q = paperKey p)
    ∧ (∀ (raw : RawResults) (qc : QueryContext) (p : Patent),
        p ∈ (pipelineResults raw qc).patents → p.patent_number ≠ "")
    ∧ (∀ (raw : RawResults) (qc : QueryContext) (c : Component),
        c ∈ (pipelineResults raw qc).components → c.part_number ≠ "") := by
  refine ⟨dedupPatents_pn_present, dedupComponents_pn_present, ?_, ?_, ?_⟩
  · intro l p hp
    obtain ⟨y, hy, hyk⟩ := dedupGo_covers (fun q : Paper => some (paperKey q)) l [] p hp
      (paperKey p) rfl (List.not_mem_nil _)
    exact ⟨y, hy, Option.some.inj hyk⟩
  · intro raw qc p hp
    obtain ⟨p₀, h₀, heq⟩ := pipeline_patents_pn_from_dedup raw qc p hp
    rw [heq]
    exact dedupPatents_pn_present raw.patents p₀ h₀
  · intro raw qc c hc
    obtain ⟨c₀, h₀, heq⟩ := pipeline_components_pn_from_dedup raw qc c hc
    rw [heq]
    exact dedupComponents_pn_present raw.components c₀ h₀

/-- A patent with an identity key, used by the C10 witness. -/
def w10patent : Patent :=
  { patent_number := "z", title := "t", abstract := "a", status := "", filing_date := "" }

/-- A paper without a DOI, used by the C10 witness. -/
def w10paper : Paper :=
  { title := "T", authors := [], year := 0, abstract := "", doi := "" }

/-- C10 witness: the theorem applied at concrete stage-1 inputs. -/
theorem C10_witness :
    w10patent.patent_number ≠ ""
    ∧ (∃ q ∈ dedupPapers [w10paper], paperKey q = paperKey w10paper) := by
  exact ⟨C10_stage1_missing_keys.1 [w10patent] w10patent (by decide),
    C10_stage1_missing_keys.2.2.1 [w10paper] w10paper (by decide)⟩

/-- C9 (amended): on any stage fault the pipeline does not abort with a bare
error — it catches the exception and returns a normal response that carries a
top-level error string together with the raw, unprocessed input under
`processed_results` (plus an empty synthesis, a fixed error report and no
metadata); the fault-free run returns no error and full metadata.  The raw
records are thus handed back to the caller alongside the error. -/
theorem C9_fault_behavior (e : String) (raw : RawResults) (q : QueryContext)
    (now : String) :
    (process (some e) raw q now).error = some e
    ∧ (process (some e) raw q now).processed_results = .rawEcho raw
    ∧ (process (some e) raw q now).synthesis = none
    ∧ (process (some e) raw q now).report = "Error processing results"
    ∧ (process (some e) raw q now).metadata = none
    ∧ returnedRecordCount (process (some e) raw q now) = rawCount raw
    ∧ (process none raw q now).error = none
    ∧ (process none raw q now).metadata
        = some (10, countFindings (pipelineResults raw q)) := by
  exact ⟨rfl, rfl, rfl, rfl, rfl, rfl, rfl, rfl⟩

/-- A non-empty raw input for the C9 counterexample. -/
def c9raw : RawResults :=
  { papers := [{ title := "t", authors := ["a"], year := 0, abstract := "", doi := "" }]
    patents := []
    components := []
    supply_chain := [] }

/-- C9 counterexample: a faulted invocation still returns the raw record to
the caller under `processed_results` (one record is handed back), so the
claim that no partial or degraded result is returned does not hold. -/
theorem C9_counterexample :
    (process (some "boom") c9raw { query := "" } "now").error = some "boom"
    ∧ returnedRecordCount (process (some "boom") c9raw { query := "" } "now") = 1 := by
  exact ⟨rfl, rfl⟩

/-- The all-empty invocation input of Scenario F. -/
def emptyRawResults : RawResults :=
  { papers := [], patents := [], components := [], supply_chain := [] }

/-- The synthesis the pipeline produces from all-empty inputs. -/
def emptySynthesis : Synthesis :=
  { summary := "Research completed: Found 0 academic papers, 0 patents, and 0 components. Analysis includes TRL classification, supply chain assessment, and cross-referencing."
    key_findings := []
    technology_trends := []
    component_recommendations := []
    supply_chain_status := .noData
    trl_distribution := [(1, 0), (2, 0), (3, 0), (4, 0), (5, 0), (6, 0), (7, 0), (8, 0), (9, 0)] }

/-- C6 (amended): with all four input lists empty the Synthesizer returns
zero counts and empty findings/trends/recommendations, no supply-chain data
and an all-zero TRL histogram; the rendered report omits every one of those
sections — but it is not header-only: the Executive Summary (stating the
zero counts) and the closing footer are always rendered in addition to the
header. -/
theorem C6_empty_input (q : QueryContext) (now : String) :
    countFindings (pipelineResults emptyRawResults q) = 0
    ∧ synthesizeFindings (pipelineResults emptyRawResults q) = emptySynthesis
    ∧ (emptySynthesis.key_findings = []
        ∧ emptySynthesis.technology_trends = []
        ∧ emptySynthesis.component_recommendations = []
        ∧ emptySynthesis.supply_chain_status = .noData
        ∧ (emptySynthesis.trl_distribution.map (fun p => p.2)).sum = 0)
    ∧ generateReport (synthesizeFindings (pipelineResults emptyRawResults q)) q now
      = specHeaderOnly q now
        ++ ("## Executive Summary\n\n" ++ emptySynthesis.summary ++ "\n\n")
        ++ "---\n\n*This report was generated by EE Research Scout - A Sentient Agent Framework application*\n" := by
  have hrs : pipelineResults emptyRawResults q
      = { papers := [], patents := [], components := [], supply_chain := [] } := rfl
  have hsyn : synthesizeFindings (pipelineResults emptyRawResults q) = emptySynthesis := by
    rw [hrs]
    decide
  refine ⟨rfl, hsyn, ⟨rfl, rfl, rfl, rfl, rfl⟩, ?_⟩
  rw [hsyn]
  simp [generateReport, emptySynthesis, specHeaderOnly, str_append_empty, distGet]

/-- C6 counterexample: the report of an all-empty invocation contains the
"## Executive Summary" section and is not equal to the header alone, so a
data-dependent section (the summary with zero counts) is rendered rather
than omitted. -/
theorem C6_counterexample :
    strHas (generateReport (synthesizeFindings (pipelineResults emptyRawResults
        { query := "q" })) { query := "q" } "now") "## Executive Summary" = true
    ∧ generateReport (synthesizeFindings (pipelineResults emptyRawResults
        { query := "q" })) { query := "q" } "now"
      ≠ specHeaderOnly { query := "q" } "now" := by
  constructor
  · decide
  · decide
